import Mathlib

/-!
Verification of the Haku issue tracker (Python sources under Haku/) against its
natural-language specification.

The Python sources are shallowly embedded below.  Strings are modelled through
their character lists; the helpers in the first section reproduce the exact
semantics of the Python string operations used by the sources
(str.split, str.join, str.strip, str.lower, str.startswith, str.endswith,
substring membership, int(), str(int), and lexicographic string comparison as
used by sorted()).  Deviations are noted where they occur; none is load-bearing
for the properties proved here:
  - int() in Python additionally accepts underscores between digits and a wider
    class of whitespace; no input considered here contains those.
  - isalnum()/lower() are Unicode-aware in Python; the inputs considered here
    are ASCII, where Char.isAlphanum/Char.toLower agree with Python.
Filesystem state is modelled explicitly: a directory is an association list of
(filename, contents) pairs, or a list of names plus a contents oracle for the
read-only listing operations.  Network calls are modelled by a gateway stub
function, and observable effects are recorded in an event trace.
-/

namespace Haku

/-! ## Python string primitives (character-list level) -/

/-- Whitespace test used by str.strip (ASCII subset). -/
def wsp (c : Char) : Bool := c == ' ' || c == '\t' || c == '\n' || c == '\r'

/-- str.strip on character lists: drop whitespace at both ends. -/
def trimWs (l : List Char) : List Char :=
  ((l.dropWhile wsp).reverse.dropWhile wsp).reverse

/-- Prefix test on character lists. -/
def hasPre : List Char → List Char → Bool
  | [], _ => true
  | _ :: _, [] => false
  | a :: as, b :: bs => a == b && hasPre as bs

/-- str.startswith. -/
def pyStartsWith (s pre : String) : Bool := hasPre pre.data s.data

/-- str.endswith. -/
def pyEndsWith (s suf : String) : Bool := hasPre suf.data.reverse s.data.reverse

/-- str.strip(). -/
def pyStrip (s : String) : String := String.mk (trimWs s.data)

/-- str.lower() (ASCII). -/
def pyLower (s : String) : String := String.mk (s.data.map Char.toLower)

/-- Auxiliary for substring membership. -/
def subAux (needle : List Char) : List Char → Bool
  | [] => needle.isEmpty
  | c :: rest => hasPre needle (c :: rest) || subAux needle rest

/-- Python substring membership: needle in hay. -/
def pyContains (hay needle : String) : Bool := subAux needle.data hay.data

/-- str.split(sep) for a one-character separator, keeping empty segments,
as Python does. -/
def split1 (sep : Char) : List Char → List (List Char)
  | [] => [[]]
  | c :: rest =>
    if c == sep then [] :: split1 sep rest
    else
      match split1 sep rest with
      | [] => [[c]]
      | h :: t => (c :: h) :: t

/-- str.split(sep) for a two-character separator (used for ": "),
scanning left to right without overlap, as Python does. -/
def split2 (c1 c2 : Char) : List Char → List (List Char)
  | [] => [[]]
  | [c] => [[c]]
  | a :: b :: rest =>
    if a == c1 && b == c2 then [] :: split2 c1 c2 rest
    else
      match split2 c1 c2 (b :: rest) with
      | [] => [[a]]
      | h :: t => (a :: h) :: t

/-- str.split for a one-character separator, at the String level. -/
def pySplitChar (sep : Char) (s : String) : List String :=
  (split1 sep s.data).map (fun l => String.mk l)

/-- line.split(": "), at the String level. -/
def pySplitColonSpace (s : String) : List String :=
  (split2 ':' ' ' s.data).map (fun l => String.mk l)

/-- sep.join(parts). -/
def joinSep (sep : String) : List String → String
  | [] => ""
  | [x] => x
  | x :: y :: rest => x ++ sep ++ joinSep sep (y :: rest)

/-- Decimal digit character (only applied to values below 10). -/
def digitChar : Nat → Char
  | 0 => '0' | 1 => '1' | 2 => '2' | 3 => '3' | 4 => '4'
  | 5 => '5' | 6 => '6' | 7 => '7' | 8 => '8' | _ => '9'

/-- Decimal digits of a natural number, most significant first.  The fuel
argument makes the recursion structural; natChars supplies enough fuel. -/
def natCharsAux : Nat → Nat → List Char
  | 0, _ => []
  | fuel + 1, n => if n < 10 then [digitChar n] else natCharsAux fuel (n / 10) ++ [digitChar (n % 10)]

/-- Decimal digits of a natural number. -/
def natChars (n : Nat) : List Char := natCharsAux (n + 1) n

/-- str(int) on character lists. -/
def intChars (i : Int) : List Char :=
  if i < 0 then '-' :: natChars i.natAbs else natChars i.toNat

/-- str(int). -/
def intToStr (i : Int) : String := String.mk (intChars i)

/-- Value of a digit string. -/
def valD (l : List Char) : Nat := l.foldl (fun a c => 10 * a + (c.toNat - 48)) 0

/-- Parse a nonempty all-digit character list. -/
def digitsToNat (l : List Char) : Option Nat :=
  if l ≠ [] ∧ l.all Char.isDigit then some (valD l) else none

/-- int(str): strip whitespace, optional sign, digits; None models ValueError. -/
def pyIntChars (l : List Char) : Option Int :=
  match trimWs l with
  | [] => none
  | c :: rest =>
    if c == '+' then (digitsToNat rest).map (fun k => (k : Int))
    else if c == '-' then (digitsToNat rest).map (fun k => -(k : Int))
    else (digitsToNat (c :: rest)).map (fun k => (k : Int))

/-- int(str) at the String level. -/
def pyInt (s : String) : Option Int := pyIntChars s.data

/-- Lexicographic comparison by code point, the comparison Python sorted()
uses on strings. -/
def lexLt : List Char → List Char → Bool
  | [], [] => false
  | [], _ :: _ => true
  | _ :: _, [] => false
  | a :: as, b :: bs =>
    if a.toNat < b.toNat then true
    else if b.toNat < a.toNat then false
    else lexLt as bs

/-- String order used by sorted(): x ≤ y iff not (y < x). -/
def pyStrLe (x y : String) : Prop := lexLt y.data x.data = false

instance : DecidableRel pyStrLe := fun _ _ => inferInstanceAs (Decidable (_ = false))

/-- sorted(names): ascending lexicographic sort. -/
def sortStr (l : List String) : List String := l.insertionSort pyStrLe

/-! ## Data model -/

/-- Issue dataclass from Haku/models.py.  labels defaults under
from_markdown to the empty list and milestone to None; created_at and
filepath are optional strings. -/
structure Issue where
  number : Int
  title : String
  body : String
  state : String
  labels : List String
  milestone : Option String
  created_at : Option String
  filepath : Option String
deriving Repr, DecidableEq

/-- A remote issue as decoded from the GitHub JSON payload (the fields the
sources read).  milestone holds the milestone title when present. -/
structure RemoteIssue where
  number : Int
  title : String
  body : String
  state : String
  created_at : String
  labels : List String
  milestone : Option String
  closed_at : Option String
deriving Repr, DecidableEq

/-- An HTTP response from the gateway stub: status code plus the number and
title fields of the JSON body. -/
structure Resp where
  status : Int
  rnumber : Int
  rtitle : String
deriving Repr, DecidableEq

/-- Observable effects of an operation, in order of occurrence.  backup is a
Backup Manager snapshot (create_backup), mutate a remote create/update call
(the Bool is true for a create/POST, false for an update/PATCH), renamed a
local os.rename, fetch a remote list/get, wrote a local file write. -/
inductive Event where
  | backup : Event
  | mutate : Bool → Int → Event
  | renamed : String → String → Event
  | fetch : Event
  | wrote : String → Event
deriving Repr, DecidableEq

/-- A directory: an association list of (filename, contents), names unique. -/
abbrev Dir := List (String × String)

/-- Names present in a directory. -/
def dirNames (d : Dir) : List String := d.map Prod.fst

/-- Writing a file with open in w mode: overwrite if the name exists, else append. -/
def dirWrite (name content : String) (d : Dir) : Dir :=
  if d.any (fun p => p.1 == name) then
    d.map (fun p => if p.1 == name then (name, content) else p)
  else d ++ [(name, content)]

/-- os.rename(old, new): the entry named old is dropped, its contents appear
under new, silently replacing an existing new (POSIX rename).  A missing old
is left unmodified here; the callers below only rename listed files. -/
def dirRename (old new : String) (d : Dir) : Dir :=
  match d.find? (fun p => p.1 == old) with
  | none => d
  | some p => (d.filter (fun q => !(q.1 == old) && !(q.1 == new))) ++ [(new, p.2)]

/-! ## Embedded source functions -/

/-- os.path.basename for the paths used here (split on '/'). -/
def basename (fp : String) : String := String.mk ((split1 '/' fp.data).getLastD [])

/-- parse_issue_filename from Haku/haku.py lines 106-116: number.title.ext,
titles may contain dots.  The identical inline parsing in
Issue.from_markdown (Haku/models.py lines 42-52) is shared here. -/
def parse_issue_filename (filename : String) : Option (Int × String) :=
  let parts := pySplitChar '.' filename
  if parts.length < 3 then none
  else
    match pyInt (parts.getD 0 "") with
    | none => none
    | some n => some (n, joinSep "." ((parts.drop 1).dropLast))

/-- The filename-safe slug of get_issue_filename (Haku/haku.py lines 99-104):
keep alphanumerics, space, '-', '_'; replace everything else by '_'; then
replace spaces by '_' and lowercase. -/
def safeTitle (title : String) : String :=
  String.mk
    (((title.data.map (fun c =>
        if c.isAlphanum || c == ' ' || c == '-' || c == '_' then c else '_')).map
      (fun c => if c == ' ' then '_' else c)).map Char.toLower)

/-- get_issue_filename from Haku/haku.py lines 99-104. -/
def get_issue_filename (issue_number : Int) (title : String) : String :=
  intToStr issue_number ++ "." ++ safeTitle title ++ ".md"

/-- Accumulator of the line loop in Issue.from_markdown. -/
structure FmAcc where
  state : String
  created : String
  body : List String
deriving Repr, DecidableEq

/-- One iteration of the line loop in Issue.from_markdown
(Haku/models.py lines 65-79).  line.split(": ")[1] cannot raise in the source
because the startswith guard guarantees at least two segments; the default ""
here is therefore never used. -/
def fmLine (acc : FmAcc) (line : String) : FmAcc :=
  if pyStartsWith line "**Created**: " then
    { acc with created := pyStrip ((pySplitColonSpace line).getD 1 "") }
  else if pyStartsWith line "**State**: " then
    { acc with state := pyStrip ((pySplitColonSpace line).getD 1 "") }
  else if pyStartsWith line "## Labels" then acc
  else if pyStartsWith line "## Milestone" then acc
  else if pyStrip line == "" then acc
  else { acc with body := acc.body ++ [line] }

/-- Issue.from_markdown from Haku/models.py lines 39-92, with the file
contents passed explicitly.  Returns none exactly where the source returns
None.  labels is always [] and milestone always None in the result, as in the
source (the lists initialised at lines 62-63 are never modified). -/
def from_markdown (filepath content : String) : Option Issue :=
  match parse_issue_filename (basename filepath) with
  | none => none
  | some (number, title) =>
    let acc := (pySplitChar '\n' content).foldl fmLine ⟨"open", "", []⟩
    some ⟨number, title, pyStrip (joinSep "\n" acc.body), acc.state, [], none,
          some acc.created, some filepath⟩

/-- Issue.to_markdown from Haku/models.py lines 94-110.  The current time
used when created_at is falsy is passed explicitly.  Python truthiness: an
empty labels list, a None or empty milestone, and a None or empty created_at
are all falsy. -/
def to_markdown (i : Issue) (now : String) : String :=
  let createdStr := match i.created_at with
    | some s => if s = "" then now else s
    | none => now
  let base := "# " ++ i.title ++ "\n\n**Created**: " ++ createdStr ++
    "\n**State**: " ++ i.state ++ "\n\n## Description\n\n" ++ i.body ++ "\n"
  let base := if i.labels ≠ [] then
    base ++ "\n## Labels\n" ++ joinSep ", " i.labels ++ "\n" else base
  match i.milestone with
  | some m => if m ≠ "" then base ++ "\n## Milestone\n" ++ m ++ "\n" else base
  | none => base

/-- The state-filter skip condition of list_local_issues (Python truthiness:
a None or empty filter never skips). -/
def stateSkip (sf : Option String) (st : String) : Bool :=
  match sf with
  | some s => s != "" && st != s
  | none => false

/-- The query skip condition of list_local_issues: case-insensitive substring
over title and body. -/
def querySkip (q : Option String) (title body : String) : Bool :=
  match q with
  | some s => s != "" && !(pyContains (pyLower title) (pyLower s)) &&
      !(pyContains (pyLower body) (pyLower s))
  | none => false

/-- list_local_issues from Haku/utils.py lines 39-64, over an explicit
directory.  from_markdown receives the filename of the entry directly:
in the source it receives os.path.join(issues_dir, filename), whose
basename is again filename. -/
def list_local_issues (d : Dir) (state_filter query : Option String) : List Issue :=
  d.foldl (fun issues p =>
    if !(pyEndsWith p.1 ".md") then issues
    else
      match from_markdown p.1 p.2 with
      | none => issues
      | some issue =>
        if stateSkip state_filter issue.state then issues
        else if querySkip query issue.title issue.body then issues
        else issues ++ [issue]) []

/-- The per-filename candidate of the loop in get_next_issue_number
(Haku/utils.py lines 72-85): .md files whose name has at least two
dot-separated parts and an integer first part. -/
def gninCand (f : String) : Option Int :=
  if pyEndsWith f ".md" then
    let parts := pySplitChar '.' f
    if parts.length < 2 then none else pyInt (parts.getD 0 "")
  else none

/-- get_next_issue_number from Haku/utils.py lines 66-87 over the filenames of the
directory (a missing directory, returning 1 in the source, corresponds to the
empty list here). -/
def get_next_issue_number (names : List String) : Int :=
  (names.foldl (fun m f =>
    match gninCand f with
    | some n => if n > m then n else m
    | none => m) 0) + 1

/-- The query skip condition of the haku.py local listing (over title and the
whole file contents, unlike utils.list_local_issues). -/
def hakuListQuerySkip (q : Option String) (title content : String) : Bool :=
  match q with
  | some s => s != "" && !(pyContains (pyLower title) (pyLower s)) &&
      !(pyContains (pyLower content) (pyLower s))
  | none => false

/-- The local branch of the list command, Haku/haku.py lines 449-481:
iterate over sorted(os.listdir(dir)); parse each filename; read the file and
take the first line starting with State: as the state (unknown when absent);
apply the open/closed/query filters; emit (number, title, state).  The
directory is a list of names plus a contents oracle.  The IOError handler at
line 480 is unreachable here because reads are total. -/
def haku_list_local (names : List String) (readFile : String → String)
    (openFlag closedFlag : Bool) (query : Option String) : List (Int × String × String) :=
  (sortStr names).foldl (fun out filename =>
    match parse_issue_filename filename with
    | none => out
    | some (number, title) =>
      let content := readFile filename
      let state := match (pySplitChar '\n' content).find? (fun l => pyStartsWith l "State:") with
        | some l => pyLower (pyStrip ((pySplitChar ':' l).getD 1 ""))
        | none => "unknown"
      if openFlag && state != "open" then out
      else if closedFlag && state != "closed" then out
      else if hakuListQuerySkip query title content then out
      else out ++ [(number, title, state)]) []

/-- The file contents written by save_issue_locally, Haku/haku.py lines
394-404.  Python truthiness on the labels, milestone
and closed_at fields read with issue.get: empty list, None and empty string
are all falsy. -/
def renderIssue (i : RemoteIssue) : String :=
  "# " ++ i.title ++ "\n\n" ++ i.body ++ "\n\n" ++
  (if i.labels ≠ [] then "Labels: " ++ joinSep ", " i.labels ++ "\n" else "") ++
  (match i.milestone with
   | some m => if m ≠ "" then "Milestone: " ++ m ++ "\n" else ""
   | none => "") ++
  "State: " ++ i.state ++ "\n" ++ "Created at: " ++ i.created_at ++ "\n" ++
  (match i.closed_at with
   | some ca => if ca ≠ "" then "Closed at: " ++ ca ++ "\n" else ""
   | none => "")

/-- save_issue_locally from Haku/haku.py lines 389-404: write the rendered
issue under the locator built from the current number and title of the issue. -/
def save_issue_locally (i : RemoteIssue) (d : Dir) : Dir :=
  dirWrite (get_issue_filename i.number i.title) (renderIssue i) d

/-- The non-dry-run --all branch of the pull command, Haku/haku.py lines
348-371: fetch the full remote list (one fetch event; the issues list is the
already-decoded response), then save each issue locally.  There is no guard,
no backup and no abort in the source. -/
def pull_all (issues : List RemoteIssue) (d : Dir) : Dir × List Event :=
  issues.foldl (fun acc i =>
    (save_issue_locally i acc.1,
     acc.2 ++ [Event.wrote (get_issue_filename i.number i.title)]))
    (d, [Event.fetch])

/-- One record collected by the push command: parsed number and title plus
the name and contents of the file. -/
structure PushRec where
  number : Int
  title : String
  name : String
  content : String
deriving Repr, DecidableEq

/-- The body sent by push, Haku/haku.py line 295: everything after the first
two lines. -/
def pushBody (content : String) : String :=
  joinSep "\n" ((pySplitChar '\n' content).drop 2)

/-- The collection loop of push, Haku/haku.py lines 274-284: parseable
filenames in scope whose contents are nonempty after stripping
(validate_markdown_file).  Note the source does not require a .md
extension here. -/
def collect_push (allFlag : Bool) (issueNumber : Option Int) (d : Dir) : List PushRec :=
  d.foldl (fun acc p =>
    match parse_issue_filename p.1 with
    | none => acc
    | some (n, t) =>
      if allFlag || issueNumber == some n then
        if pyStrip p.2 != "" then acc ++ [⟨n, t, p.1, p.2⟩] else acc
      else acc) []

/-- The per-record loop of push, Haku/haku.py lines 289-328 (non-dry-run).
For number > 0 an update (PATCH) is sent, otherwise a create (POST); the
gateway stub g receives (isCreate, number, title, body) and returns the
response.  On status 200/201 the file of a created record is renamed to the
locator built from the server-assigned number and title; on status >= 400
handle_github_error raises ClickException, modelled by returning with the
aborted flag true; other statuses fall through and the loop continues.
Result: (final directory, event trace, aborted). -/
def pushLoop (g : Bool → Int → String → String → Resp) :
    List PushRec → Dir → List Event → Dir × List Event × Bool
  | [], d, tr => (d, tr, false)
  | r :: rest, d, tr =>
    let isCreate : Bool := decide (r.number ≤ 0)
    let resp := g isCreate r.number r.title (pushBody r.content)
    let tr2 := tr ++ [Event.mutate isCreate r.number]
    if resp.status == 200 || resp.status == 201 then
      if r.number ≤ 0 then
        let newName := get_issue_filename resp.rnumber resp.rtitle
        pushLoop g rest (dirRename r.name newName d) (tr2 ++ [Event.renamed r.name newName])
      else pushLoop g rest d tr2
    else if 400 ≤ resp.status then (d, tr2, true)
    else pushLoop g rest d tr2

/-- The push command, Haku/haku.py lines 254-328 (non-dry-run): the usage
guard (no scope given; note Python treats issue number 0 as falsy), the
collection phase, the no-valid-issues error (none models the raised
exceptions of both guards), then the per-record loop. -/
def push (allFlag : Bool) (issueNumber : Option Int)
    (g : Bool → Int → String → String → Resp) (d : Dir) :
    Option (Dir × List Event × Bool) :=
  if !allFlag && (issueNumber.isNone || issueNumber == some 0) then none
  else
    let files := collect_push allFlag issueNumber d
    if files.isEmpty then none
    else some (pushLoop g files d [])

/-! ## Spec-side definitions (for comparison with the embedded code) -/

/-- Modelled from the spec (section 4.2): the positive identities present in
a directory, as the Identity Allocator contract describes its input set —
parsed with the same per-filename candidate rule as the loop in the code, then
restricted to positive values. -/
def specPositiveIdentities (names : List String) : List Int :=
  (names.filterMap gninCand).filter (fun n => decide (0 < n))

/-- The positive identity encoded in a locator name, if any. -/
def parsePosId (f : String) : Option Int :=
  match parse_issue_filename f with
  | some (n, _) => if 0 < n then some n else none
  | none => none

/-- The Local Store uniqueness invariant of the spec (section 3): no two
files of the directory carry the same positive identity. -/
def uniquePosIds (d : Dir) : Prop := ((d.map Prod.fst).filterMap parsePosId).Nodup

instance uniquePosIdsDec (d : Dir) : Decidable (uniquePosIds d) :=
  List.nodupDecidable _

/-- A pending-creation record (identity 0) exists in the directory. -/
def hasPendingCreation (d : Dir) : Prop :=
  ∃ f ∈ d.map Prod.fst, (parse_issue_filename f).map Prod.fst = some (0 : Int)

/-! ## Infrastructure lemmas: the string order used by sorted() -/

theorem strEq_of_data (x y : String) (h : x.data = y.data) : x = y := by
  cases x
  cases y
  exact congrArg String.mk h

theorem charEq_of_toNat (a b : Char) (h : a.toNat = b.toNat) : a = b :=
  Char.eq_of_val_eq (UInt32.ext h)

theorem lexLt_asymm : ∀ as bs, lexLt as bs = true → lexLt bs as = true → False := by
  intro as
  induction as with
  | nil =>
    intro bs h1 h2
    cases bs <;> simp [lexLt] at h1 h2
  | cons a as ih =>
    intro bs h1 h2
    cases bs with
    | nil => simp [lexLt] at h1
    | cons b bs =>
      by_cases hab : a.toNat < b.toNat
      · simp [lexLt, hab, show ¬ b.toNat < a.toNat by omega] at h2
      · by_cases hba : b.toNat < a.toNat
        · simp [lexLt, hab, hba] at h1
        · simp [lexLt, hab, hba] at h1 h2
          exact ih bs h1 h2

theorem lexLt_false_trans :
    ∀ as bs cs, lexLt bs as = false → lexLt cs bs = false → lexLt cs as = false := by
  intro as
  induction as with
  | nil =>
    intro bs cs h1 h2
    cases bs with
    | nil => cases cs <;> simp_all [lexLt]
    | cons b bs => cases cs <;> simp_all [lexLt]
  | cons a as ih =>
    intro bs cs h1 h2
    cases bs with
    | nil => simp [lexLt] at h1
    | cons b bs =>
      cases cs with
      | nil => simp [lexLt] at h2
      | cons c cs =>
        by_cases h₁ : b.toNat < a.toNat
        · simp [lexLt, h₁] at h1
        · by_cases h₂ : c.toNat < b.toNat
          · simp [lexLt, h₂] at h2
          · by_cases h₃ : c.toNat < a.toNat
            · omega
            · by_cases h₄ : a.toNat < c.toNat
              · simp [lexLt, h₃, h₄]
              · have hab : a.toNat = b.toNat := by omega
                have hbc : b.toNat = c.toNat := by omega
                simp [lexLt, h₁, show ¬ a.toNat < b.toNat by omega] at h1
                simp [lexLt, h₂, show ¬ b.toNat < c.toNat by omega] at h2
                simp [lexLt, h₃, h₄]
                exact ih bs cs h1 h2

theorem lexLt_antisymm_eq :
    ∀ as bs, lexLt bs as = false → lexLt as bs = false → as = bs := by
  intro as
  induction as with
  | nil =>
    intro bs h1 h2
    cases bs with
    | nil => rfl
    | cons b bs => simp [lexLt] at h2
  | cons a as ih =>
    intro bs h1 h2
    cases bs with
    | nil => simp [lexLt] at h1
    | cons b bs =>
      by_cases hab : a.toNat < b.toNat
      · simp [lexLt, hab] at h2
      · by_cases hba : b.toNat < a.toNat
        · simp [lexLt, hba] at h1
        · have hc : a = b := charEq_of_toNat a b (by omega)
          subst hc
          simp [lexLt, hab] at h1 h2
          rw [ih bs h1 h2]

instance : IsTotal String pyStrLe := by
  constructor
  intro x y
  unfold pyStrLe
  cases hxy : lexLt x.data y.data with
  | false => exact Or.inr rfl
  | true =>
    cases hyx : lexLt y.data x.data with
    | false => exact Or.inl rfl
    | true => exact (lexLt_asymm _ _ hxy hyx).elim

instance : IsTrans String pyStrLe :=
  ⟨fun x y z h1 h2 => lexLt_false_trans x.data y.data z.data h1 h2⟩

instance : IsAntisymm String pyStrLe :=
  ⟨fun x y h1 h2 => strEq_of_data x y (lexLt_antisymm_eq x.data y.data h1 h2)⟩

/-- sorted() only depends on the multiset of names: permuting the directory
enumeration leaves the sorted output unchanged. -/
theorem sortStr_perm_inv {l l' : List String} (h : l.Perm l') : sortStr l = sortStr l' :=
  List.eq_of_perm_of_sorted
    (((List.perm_insertionSort pyStrLe l).trans h).trans
      (List.perm_insertionSort pyStrLe l').symm)
    (List.sorted_insertionSort pyStrLe l)
    (List.sorted_insertionSort pyStrLe l')

/-! ## Infrastructure lemmas: decimal digits and int() round-trip -/

theorem digitChar_spec (n : Nat) :
    (digitChar n).isDigit = true ∧ wsp (digitChar n) = false ∧
    digitChar n ≠ '+' ∧ digitChar n ≠ '-' ∧ digitChar n ≠ '.' := by
  unfold digitChar
  split <;> exact ⟨by decide, by decide, by decide, by decide, by decide⟩

theorem digitChar_val (n : Nat) (h : n < 10) : (digitChar n).toNat - 48 = n := by
  interval_cases n <;> decide

theorem valD_append_singleton (l : List Char) (c : Char) :
    valD (l ++ [c]) = 10 * valD l + (c.toNat - 48) := by
  simp [valD, List.foldl_append]

theorem natCharsAux_all :
    ∀ fuel n c, c ∈ natCharsAux fuel n → ∃ m, m < 10 ∧ c = digitChar m := by
  intro fuel
  induction fuel with
  | zero => intro n c hc; simp [natCharsAux] at hc
  | succ fuel ih =>
    intro n c hc
    by_cases h : n < 10
    · simp [natCharsAux, h] at hc
      exact ⟨n, h, hc⟩
    · simp [natCharsAux, h] at hc
      rcases hc with hc | hc
      · exact ih _ _ hc
      · exact ⟨n % 10, Nat.mod_lt _ (by omega), hc⟩

theorem natCharsAux_ne_nil :
    ∀ fuel n, n < fuel → natCharsAux fuel n ≠ [] := by
  intro fuel
  induction fuel with
  | zero => intro n h; omega
  | succ fuel _ =>
    intro n _
    by_cases h : n < 10 <;> simp [natCharsAux, h]

theorem natCharsAux_val :
    ∀ fuel n, n < fuel → valD (natCharsAux fuel n) = n := by
  intro fuel
  induction fuel with
  | zero => intro n h; omega
  | succ fuel ih =>
    intro n hn
    by_cases h : n < 10
    · simp [natCharsAux, h, valD, digitChar_val n h]
    · have hdiv : n / 10 < n := Nat.div_lt_self (by omega) (by omega)
      have hfuel : n / 10 < fuel := by omega
      simp only [natCharsAux, h, if_false]
      rw [valD_append_singleton, ih _ hfuel, digitChar_val _ (Nat.mod_lt _ (by omega))]
      omega

theorem dropWhile_wsp_eq_self (l : List Char) (h : ∀ c ∈ l, wsp c = false) :
    l.dropWhile wsp = l := by
  cases l with
  | nil => rfl
  | cons a l => simp [List.dropWhile_cons, h a (by simp)]

theorem trimWs_eq_self (l : List Char) (h : ∀ c ∈ l, wsp c = false) : trimWs l = l := by
  unfold trimWs
  rw [dropWhile_wsp_eq_self l h,
      dropWhile_wsp_eq_self l.reverse (fun c hc => h c (List.mem_reverse.mp hc)),
      List.reverse_reverse]

theorem natChars_digits (m : Nat) : ∀ c ∈ natChars m, c.isDigit = true := by
  intro c hc
  obtain ⟨k, _, rfl⟩ := natCharsAux_all _ _ _ hc
  exact (digitChar_spec k).1

theorem pyIntChars_natChars (m : Nat) : pyIntChars (natChars m) = some (m : Int) := by
  have htrim : trimWs (natChars m) = natChars m := by
    apply trimWs_eq_self
    intro c hc
    obtain ⟨k, _, rfl⟩ := natCharsAux_all (m + 1) m c hc
    exact (digitChar_spec k).2.1
  have hne : natChars m ≠ [] := natCharsAux_ne_nil _ _ (by omega)
  have hval : valD (natChars m) = m := natCharsAux_val _ _ (by omega)
  have hdig : ∀ c ∈ natChars m, c.isDigit = true := natChars_digits m
  unfold pyIntChars
  rw [htrim]
  cases hnc : natChars m with
  | nil => exact absurd hnc hne
  | cons c rest =>
    have hmem : c ∈ natChars m := by
      rw [hnc]
      exact List.mem_cons_self c rest
    obtain ⟨k, _, hck⟩ := natCharsAux_all (m + 1) m c hmem
    have hplus : (c == '+') = false := by
      rw [hck]
      exact beq_eq_false_iff_ne.mpr (digitChar_spec k).2.2.1
    have hminus : (c == '-') = false := by
      rw [hck]
      exact beq_eq_false_iff_ne.mpr (digitChar_spec k).2.2.2.1
    have hdig2 : (c :: rest).all Char.isDigit = true := by
      rw [← hnc]
      exact List.all_eq_true.mpr hdig
    simp only [hplus, hminus, Bool.false_eq_true, if_false]
    unfold digitsToNat
    rw [if_pos ⟨List.cons_ne_nil c rest, hdig2⟩]
    rw [show (c :: rest) = natChars m from hnc.symm, hval]
    rfl

theorem mk_data (s : String) : String.mk s.data = s := by
  cases s
  rfl

theorem pyInt_intToStr (n : Int) (h : 0 ≤ n) : pyInt (intToStr n) = some n := by
  show pyIntChars (intChars n) = some n
  rw [intChars, if_neg (not_lt.mpr h)]
  rw [pyIntChars_natChars n.toNat]
  rw [Int.toNat_of_nonneg h]

/-! ## Infrastructure lemmas: str.split on a single character -/

theorem split1_not_mem (c : Char) : ∀ a : List Char, c ∉ a → split1 c a = [a] := by
  intro a
  induction a with
  | nil => intro _; rfl
  | cons x xs ih =>
    intro h
    have h1 : c ≠ x ∧ c ∉ xs := by simpa [List.mem_cons, not_or] using h
    have hx : (x == c) = false := beq_eq_false_iff_ne.mpr (Ne.symm h1.1)
    simp only [split1, hx, Bool.false_eq_true, if_false, ih h1.2]

theorem split1_append (c : Char) :
    ∀ a b : List Char, c ∉ a → split1 c (a ++ c :: b) = a :: split1 c b := by
  intro a
  induction a with
  | nil =>
    intro b _
    simp [split1]
  | cons x xs ih =>
    intro b h
    have h1 : c ≠ x ∧ c ∉ xs := by simpa [List.mem_cons, not_or] using h
    have hx : (x == c) = false := beq_eq_false_iff_ne.mpr (Ne.symm h1.1)
    simp only [List.cons_append, split1, hx, Bool.false_eq_true, if_false,
      List.append_eq, ih b h1.2]

/-! ## Infrastructure lemmas: the locator round-trips through
parse_issue_filename -/

theorem ofNat_ne_dot (k : Nat) (h1 : 97 ≤ k) (h2 : k ≤ 122) : Char.ofNat k ≠ '.' := by
  interval_cases k <;> decide

theorem toLower_ne_dot (c : Char) (h : c ≠ '.') : c.toLower ≠ '.' := by
  simp only [Char.toLower]
  split
  · exact ofNat_ne_dot _ (by omega) (by omega)
  · exact h

theorem safeTitle_no_dot (t : String) : ∀ c ∈ (safeTitle t).data, c ≠ '.' := by
  intro c hc
  unfold safeTitle at hc
  simp only [List.mem_map] at hc
  obtain ⟨c2, ⟨c1, ⟨c0, _, rfl⟩, rfl⟩, rfl⟩ := hc
  apply toLower_ne_dot
  by_cases hk : (c0.isAlphanum || c0 == ' ' || c0 == '-' || c0 == '_') = true
  · rw [if_pos hk]
    by_cases hs : (c0 == ' ') = true
    · rw [if_pos hs]
      decide
    · rw [if_neg hs]
      intro he
      subst he
      exact absurd hk (by decide)
  · rw [if_neg hk]
    decide

theorem no_dot_intChars (n : Int) (h : 0 ≤ n) : '.' ∉ intChars n := by
  intro hc
  rw [intChars, if_neg (not_lt.mpr h)] at hc
  obtain ⟨k, _, hk⟩ := natCharsAux_all _ _ _ hc
  exact (digitChar_spec k).2.2.2.2 hk.symm

theorem parse_get_issue_filename (n : Int) (t : String) (h : 0 ≤ n) :
    parse_issue_filename (get_issue_filename n t) = some (n, safeTitle t) := by
  have hdata : (get_issue_filename n t).data
      = intChars n ++ '.' :: ((safeTitle t).data ++ '.' :: 'm' :: 'd' :: []) := by
    have hgrp : (get_issue_filename n t).data
        = ((intToStr n).data ++ ".".data ++ (safeTitle t).data) ++ ".md".data := rfl
    rw [hgrp]
    simp [intToStr, List.append_assoc]
  have hnodot2 : '.' ∉ (safeTitle t).data := fun hc => safeTitle_no_dot t '.' hc rfl
  unfold parse_issue_filename pySplitChar
  rw [hdata, split1_append '.' _ _ (no_dot_intChars n h),
      split1_append '.' _ _ hnodot2,
      split1_not_mem '.' ['m', 'd'] (by decide)]
  simp only [List.map_cons, List.map_nil]
  rw [show String.mk (intChars n) = intToStr n from rfl,
      mk_data (safeTitle t)]
  rw [if_neg (by simp)]
  rw [show ([intToStr n, safeTitle t, String.mk ['m', 'd']].getD 0 "") = intToStr n from rfl]
  rw [pyInt_intToStr n h]
  rfl

/-! ## Infrastructure lemmas: the get_next_issue_number fold -/

theorem gnin_fold_filterMap (names : List String) :
    ∀ m : Int,
      names.foldl (fun m f =>
          match gninCand f with
          | some n => if n > m then n else m
          | none => m) m
        = (names.filterMap gninCand).foldl (fun a n => if n > a then n else a) m := by
  induction names with
  | nil => intro m; rfl
  | cons f names ih =>
    intro m
    cases hf : gninCand f <;> simp [List.filterMap_cons, hf, ih]

theorem maxfold_pos (l : List Int) :
    ∀ a : Int, 0 ≤ a →
      l.foldl (fun a n => if n > a then n else a) a
        = max a ((l.filter (fun n => decide (0 < n))).foldr max 0) := by
  induction l with
  | nil =>
    intro a ha
    simp [max_eq_left ha]
  | cons n l ih =>
    intro a ha
    by_cases hn : 0 < n
    · have hstep : (if n > a then n else a) = max a n := by
        rcases le_or_lt n a with hle | hlt
        · rw [if_neg (not_lt.mpr hle), max_eq_left hle]
        · rw [if_pos hlt, max_eq_right hlt.le]
      have ha2 : 0 ≤ (if n > a then n else a) := by split <;> omega
      rw [List.foldl_cons, ih _ ha2, hstep]
      simp only [List.filter_cons, decide_eq_true_eq, hn, if_pos, List.foldr_cons]
      rw [max_assoc]
    · have hna : ¬ n > a := by omega
      rw [List.foldl_cons, if_neg hna, ih a ha]
      simp only [List.filter_cons, decide_eq_true_eq, hn, if_neg, ite_false]

theorem foldr_max_nonneg (l : List Int) : 0 ≤ l.foldr max 0 := by
  induction l with
  | nil => simp
  | cons n l ih =>
    rw [List.foldr_cons]
    exact le_trans ih (le_max_right n _)

/-- C7: get_next_issue_number returns the maximum of the positive identities
present in the directory plus one, and 1 when no positive identity exists.
Identity-0 (pending) records never influence the result: they are absent from
specPositiveIdentities, and in the fold of the code itself a parsed 0 can never
exceed the accumulator, which starts at 0. -/
theorem c7_next_identity (names : List String) :
    get_next_issue_number names = (specPositiveIdentities names).foldr max 0 + 1 ∧
    (specPositiveIdentities names = [] → get_next_issue_number names = 1) := by
  have hmain : get_next_issue_number names
      = (specPositiveIdentities names).foldr max 0 + 1 := by
    unfold get_next_issue_number specPositiveIdentities
    rw [gnin_fold_filterMap names 0, maxfold_pos _ 0 le_rfl,
        max_eq_right (foldr_max_nonneg _)]
  exact ⟨hmain, fun he => by rw [hmain, he]; rfl⟩

/-- C7 witness: at a directory holding identities 3, 1, 7 and a pending 0,
the allocator result equals the positive maximum plus one. -/
theorem c7_next_identity_witness :
    get_next_issue_number ["3.a.md", "1.b.md", "7.c.md", "0.d.md"]
      = (specPositiveIdentities ["3.a.md", "1.b.md", "7.c.md", "0.d.md"]).foldr max 0 + 1 ∧
    (specPositiveIdentities ["3.a.md", "1.b.md", "7.c.md", "0.d.md"] = [] →
      get_next_issue_number ["3.a.md", "1.b.md", "7.c.md", "0.d.md"] = 1) :=
  c7_next_identity ["3.a.md", "1.b.md", "7.c.md", "0.d.md"]

/-! ## Claim C1: codec round-trip -/

/-- C1: the round-trip law fails on the code.  Take the syntactically valid
record r with identity 1, title "a", body "b", state open, no labels, no
milestone, created_at 2020-01-01T00:00:00 (title and body contain no control
characters, and the slug of "a" is "a", so the locator of r is 1.a.md).  Decoding
the encoded text under that locator yields a record whose body is
"# a\n## Description\nb": from_markdown folds the title heading and the
## Description heading into the body and drops the blank lines, so the
decoded record differs from r in its body field.  The round-trip law of the spec
decode(encode(r)) == r is therefore violated at this input. -/
theorem c1_roundtrip_fails :
    from_markdown (get_issue_filename 1 "a")
        (to_markdown ⟨1, "a", "b", "open", [], none, some "2020-01-01T00:00:00", none⟩
          "2026-10-12T00:00:00")
      = some ⟨1, "a", "# a\n## Description\nb", "open", [], none,
              some "2020-01-01T00:00:00", some "1.a.md"⟩ ∧
    "# a\n## Description\nb" ≠ "b" := by
  constructor
  · decide
  · decide

/-! ## Claim C2: local listing order -/

/-- C2 counterexample: a directory holding records with identities 1, 10 and
2 (locators 1.a.md, 10.b.md, 2.c.md, each containing State: open) is listed
by the haku.py list command in the order #1, #10, #2 — not in the numeric
order #1, #2, #10 the claim requires. -/
theorem c2_counterexample :
    (haku_list_local ["1.a.md", "10.b.md", "2.c.md"] (fun _ => "State: open")
        false false none).map (fun r => r.1) = [1, 10, 2] ∧
    (haku_list_local ["1.a.md", "10.b.md", "2.c.md"] (fun _ => "State: open")
        false false none).map (fun r => r.1) ≠ [1, 2, 10] := by
  constructor
  · decide
  · decide

/-- C2 amended: the list operation orders records lexicographically by
locator name (sorted() over the directory listing), deterministically whatever the
enumeration order of the directory; with identities 2, 10, 1 the listing is
#1, #10, #2. -/
theorem c2_amended :
    (∀ (names names' : List String) (readFile : String → String)
        (openFlag closedFlag : Bool) (query : Option String),
      names.Perm names' →
        haku_list_local names readFile openFlag closedFlag query
          = haku_list_local names' readFile openFlag closedFlag query) ∧
    (haku_list_local ["1.a.md", "10.b.md", "2.c.md"] (fun _ => "State: open")
        false false none).map (fun r => r.1) = [1, 10, 2] := by
  constructor
  · intro names names' readFile openFlag closedFlag query h
    unfold haku_list_local
    rw [sortStr_perm_inv h]
  · decide

/-- C2 amended, witness: the listing of a two-entry directory is unchanged
under swapping the enumeration order. -/
theorem c2_amended_witness :
    haku_list_local ["1.a.md", "10.b.md"] (fun _ => "State: open") false false none
      = haku_list_local ["10.b.md", "1.a.md"] (fun _ => "State: open") false false none :=
  c2_amended.1 _ _ _ _ _ _ (List.Perm.swap "10.b.md" "1.a.md" [])

/-! ## Claim C8: malformed-file handling -/

/-- C8 counterexample: the file 1.a.md whose contents are the single word
hello — lacking every metadata marker the codec writes — does not decode to
a malformed result: from_markdown returns a record (with the contents as its
body and the defaults open and empty created), and list_local_issues
includes that record in its output instead of excluding the file. -/
theorem c8_counterexample :
    from_markdown "1.a.md" "hello"
      = some ⟨1, "a", "hello", "open", [], none, some "", some "1.a.md"⟩ ∧
    list_local_issues [("1.a.md", "hello")] none none
      = [⟨1, "a", "hello", "open", [], none, some "", some "1.a.md"⟩] := by
  constructor
  · decide
  · decide

/-- C8 amended: malformedness is determined by the locator filename alone.
A file whose name lacks three dot-separated parts decodes to none whatever
its contents, and list_local_issues skips it while continuing with the rest
of the directory; conversely a well-named file decodes to a record whatever
its contents — a missing metadata-block marker never yields malformed. -/
theorem c8_amended (c : String) (d : Dir) :
    from_markdown "badname.md" c = none ∧
    from_markdown "1.a.md" c ≠ none ∧
    list_local_issues (("badname.md", c) :: d) none none
      = list_local_issues d none none := by
  refine ⟨rfl, ?_, rfl⟩
  intro h
  have hsome : from_markdown "1.a.md" c
      = some ⟨1, "a",
          pyStrip (joinSep "\n" ((pySplitChar '\n' c).foldl fmLine ⟨"open", "", []⟩).body),
          ((pySplitChar '\n' c).foldl fmLine ⟨"open", "", []⟩).state, [], none,
          some ((pySplitChar '\n' c).foldl fmLine ⟨"open", "", []⟩).created,
          some "1.a.md"⟩ := rfl
  rw [hsome] at h
  exact Option.some_ne_none _ h

/-- C8 amended, witness: at a concrete malformed name and a concrete
directory the decode is none, a well-named file with the same contents
decodes, and the listing skips the malformed file. -/
theorem c8_amended_witness :
    from_markdown "badname.md" "zzz" = none ∧
    from_markdown "1.a.md" "zzz" ≠ none ∧
    list_local_issues [("badname.md", "zzz"), ("1.a.md", "zzz")] none none
      = list_local_issues [("1.a.md", "zzz")] none none :=
  c8_amended "zzz" [("1.a.md", "zzz")]

/-! ## Claim C10: decode never recovers labels or milestone -/

/-- C10: whenever Issue.from_markdown succeeds, the returned record has an
empty labels list and no milestone, regardless of the file contents: the
decoder initialises labels to [] and milestone to None and never assigns
them (the Labels and Milestone headings are skipped, their payload lines
fall into the body). -/
theorem c10_decode_labels_milestone (filepath content : String) (i : Issue)
    (h : from_markdown filepath content = some i) :
    i.labels = [] ∧ i.milestone = none := by
  unfold from_markdown at h
  cases hp : parse_issue_filename (basename filepath) with
  | none =>
    rw [hp] at h
    exact absurd h (by simp)
  | some pr =>
    obtain ⟨number, title⟩ := pr
    rw [hp] at h
    simp only [Option.some.injEq] at h
    rw [← h]
    exact ⟨rfl, rfl⟩

/-- C10 witness: the concrete file 1.a.md with contents hello decodes, and
the decoded record has labels [] and milestone none. -/
theorem c10_witness :
    (⟨1, "a", "hello", "open", [], none, some "", some "1.a.md"⟩ : Issue).labels = [] ∧
    (⟨1, "a", "hello", "open", [], none, some "", some "1.a.md"⟩ : Issue).milestone = none :=
  c10_decode_labels_milestone "1.a.md" "hello" _ (by decide)

/-! ## Claim C3: push error isolation -/

/-- C3 counterexample: pushing two pending records (0.a.md, 0.b.md) against
a gateway that fails the first with status 422 (validation_failed) and would
succeed on the second aborts the batch at the first failure: push returns
with the aborted flag set, the event trace holds only the remote call of the first
record — no call for the second record, no rename — and the directory
is unchanged, so the second record is neither pushed nor promoted and the
failure is raised mid-batch rather than reported at the end. -/
theorem c3_counterexample :
    push true none
        (fun _ _ t _ => if t = "a" then (⟨422, 0, ""⟩ : Resp) else ⟨201, 7, "b"⟩)
        [("0.a.md", "# a\n\nbody a"), ("0.b.md", "# b\n\nbody b")]
      = some ([("0.a.md", "# a\n\nbody a"), ("0.b.md", "# b\n\nbody b")],
              [Event.mutate true 0], true) ∧
    "0.b.md" ∈ dirNames [("0.a.md", "# a\n\nbody a"), ("0.b.md", "# b\n\nbody b")] := by
  constructor
  · decide
  · decide

/-- C3 amended: in the push command of haku.py, an HTTP error status (>= 400) on one
record aborts the whole batch: handle_github_error raises at that record, so
the loop stops with exactly the calls made so far in the trace, no further
record is pushed or promoted, and the directory is left as it stood at the
failure. -/
theorem c3_amended (g : Bool → Int → String → String → Resp) (r : PushRec)
    (rest : List PushRec) (d : Dir) (tr : List Event)
    (h4 : 400 ≤ (g (decide (r.number ≤ 0)) r.number r.title (pushBody r.content)).status) :
    pushLoop g (r :: rest) d tr
      = (d, tr ++ [Event.mutate (decide (r.number ≤ 0)) r.number], true) := by
  have hne : ¬ (((g (decide (r.number ≤ 0)) r.number r.title (pushBody r.content)).status == 200
      || (g (decide (r.number ≤ 0)) r.number r.title (pushBody r.content)).status == 201) = true) := by
    simp only [Bool.or_eq_true, beq_iff_eq]
    rintro (h | h) <;> omega
  simp only [pushLoop]
  rw [if_neg hne, if_pos h4]

/-- C3 amended, witness: the concrete two-record batch of the counterexample
aborts at the first record with only its remote call in the trace. -/
theorem c3_amended_witness :
    pushLoop (fun _ _ t _ => if t = "a" then (⟨422, 0, ""⟩ : Resp) else ⟨201, 7, "b"⟩)
        [⟨0, "a", "0.a.md", "# a\n\nbody a"⟩, ⟨0, "b", "0.b.md", "# b\n\nbody b"⟩]
        [("0.a.md", "# a\n\nbody a"), ("0.b.md", "# b\n\nbody b")] []
      = ([("0.a.md", "# a\n\nbody a"), ("0.b.md", "# b\n\nbody b")],
         [Event.mutate true 0], true) :=
  c3_amended _ _ _ _ _ (by decide)

/-! ## Claim C4: backup before mutation -/

/-- Helper: the push loop never emits a backup event (create_backup is not
called anywhere in push). -/
theorem pushLoop_no_backup (g : Bool → Int → String → String → Resp) :
    ∀ (files : List PushRec) (d : Dir) (tr : List Event),
      Event.backup ∉ tr → Event.backup ∉ (pushLoop g files d tr).2.1 := by
  intro files
  induction files with
  | nil => intro d tr h; exact h
  | cons r rest ih =>
    intro d tr h
    simp only [pushLoop]
    split
    · split
      · apply ih
        simp [List.mem_append, h]
      · apply ih
        simp [List.mem_append, h]
    · split
      · simp [List.mem_append, h]
      · apply ih
        simp [List.mem_append, h]

/-- C4 counterexample: a non-dry-run push of the single existing record
3.bug.md issues a remote mutation (the update call in the trace) and the
trace holds no Backup Manager snapshot at all — no snapshot completes before
the first remote mutation. -/
theorem c4_counterexample :
    push true none (fun _ _ _ _ => (⟨200, 3, "bug"⟩ : Resp))
        [("3.bug.md", "# bug\n\ncontents")]
      = some ([("3.bug.md", "# bug\n\ncontents")], [Event.mutate false 3], false) ∧
    Event.backup ∉ [Event.mutate false 3] := by
  constructor
  · decide
  · decide

/-- C4 amended: push never snapshots.  For every gateway, record batch and
starting directory, the event trace of the push loop contains no backup
event: in the source create_backup is invoked only by the delete command,
never by push, so every push execution performs its remote mutations
unbacked. -/
theorem c4_amended (g : Bool → Int → String → String → Resp)
    (files : List PushRec) (d : Dir) :
    Event.backup ∉ (pushLoop g files d []).2.1 :=
  pushLoop_no_backup g files d [] (by simp)

/-- C4 amended, witness: the concrete single-record push of the
counterexample produces a trace with no backup event. -/
theorem c4_amended_witness :
    Event.backup ∉ (pushLoop (fun _ _ _ _ => (⟨200, 3, "bug"⟩ : Resp))
        [⟨3, "bug", "3.bug.md", "# bug\n\ncontents"⟩]
        [("3.bug.md", "# bug\n\ncontents")] []).2.1 :=
  c4_amended (fun _ _ _ _ => (⟨200, 3, "bug"⟩ : Resp))
    [⟨3, "bug", "3.bug.md", "# bug\n\ncontents"⟩]
    [("3.bug.md", "# bug\n\ncontents")]

/-! ## Claim C6: pull conservative-overwrite guard -/

/-- Helper: the trace of the pull fold is the starting trace followed by one
write event per fetched issue. -/
theorem pull_fold_trace (issues : List RemoteIssue) :
    ∀ (d : Dir) (tr : List Event),
      (issues.foldl (fun acc i =>
        (save_issue_locally i acc.1,
         acc.2 ++ [Event.wrote (get_issue_filename i.number i.title)])) (d, tr)).2
        = tr ++ issues.map (fun i => Event.wrote (get_issue_filename i.number i.title)) := by
  induction issues with
  | nil =>
    intro d tr
    simp
  | cons i issues ih =>
    intro d tr
    rw [List.foldl_cons, ih, List.map_cons]
    simp [List.append_assoc]

/-- C6 counterexample: with one local pending-creation record (0.draft.md)
present, pull under the code as written does not abort: it fetches the
remote list and writes the fetched issue 1.t.md into the store — one remote
call and one filesystem write, where the claim requires zero of each. -/
theorem c6_counterexample :
    hasPendingCreation [("0.draft.md", "# draft")] ∧
    (pull_all [⟨1, "t", "b", "open", "2020", [], none, none⟩]
        [("0.draft.md", "# draft")]).2
      = [Event.fetch, Event.wrote "1.t.md"] ∧
    dirNames (pull_all [⟨1, "t", "b", "open", "2020", [], none, none⟩]
        [("0.draft.md", "# draft")]).1
      = ["0.draft.md", "1.t.md"] := by
  refine ⟨⟨"0.draft.md", by simp, by decide⟩, by decide, by decide⟩

/-- C6 amended: pull has no conservative-overwrite guard and takes no
backup.  For every local state — pending-creation records present or not —
pull fetches the remote list and then writes every fetched issue: its trace
is exactly the fetch followed by one write per issue, and never contains a
backup event. -/
theorem c6_amended (issues : List RemoteIssue) (d : Dir) :
    (pull_all issues d).2
      = Event.fetch :: issues.map (fun i => Event.wrote (get_issue_filename i.number i.title)) ∧
    Event.backup ∉ (pull_all issues d).2 := by
  have h : (pull_all issues d).2
      = [Event.fetch] ++ issues.map (fun i => Event.wrote (get_issue_filename i.number i.title)) :=
    pull_fold_trace issues d [Event.fetch]
  refine ⟨by simpa using h, ?_⟩
  rw [h]
  simp [List.mem_append, List.mem_map]

/-- C6 amended, witness: at the concrete state of the counterexample the
pull trace is the fetch followed by the single write, with no backup. -/
theorem c6_amended_witness :
    (pull_all [⟨1, "t", "b", "open", "2020", [], none, none⟩]
        [("0.draft.md", "# draft")]).2
      = Event.fetch :: ([⟨1, "t", "b", "open", "2020", [], none, none⟩] : List RemoteIssue).map
          (fun i => Event.wrote (get_issue_filename i.number i.title)) ∧
    Event.backup ∉ (pull_all ([⟨1, "t", "b", "open", "2020", [], none, none⟩] : List RemoteIssue)
        [("0.draft.md", "# draft")]).2 :=
  c6_amended [⟨1, "t", "b", "open", "2020", [], none, none⟩] [("0.draft.md", "# draft")]

/-! ## Claim C5: identity promotion is a rename, not a copy -/

/-- C5: for a pending-creation record (identity 0, file name, contents
content) whose push-create succeeds (status 200 or 201) with a
server-assigned positive identity resp.rnumber, the push loop renames the
file: afterwards the new locator (built from the server-assigned number and
title) is present, the old identity-0 locator is absent, and exactly one of
the two locators of the record exists in the directory — a rename, not a copy.
The new locator parses back to the server-assigned identity. -/
theorem c5_promotion (d : Dir) (name content title : String)
    (g : Bool → Int → String → String → Resp) (tr : List Event) (resp : Resp)
    (newName : String)
    (hresp : g true 0 title (pushBody content) = resp)
    (hnew : newName = get_issue_filename resp.rnumber resp.rtitle)
    (hmem : name ∈ dirNames d)
    (hpend : (parse_issue_filename name).map Prod.fst = some 0)
    (hok : resp.status = 200 ∨ resp.status = 201)
    (hn : 0 < resp.rnumber) :
    pushLoop g [⟨0, title, name, content⟩] d tr
      = (dirRename name newName d,
         tr ++ [Event.mutate true 0, Event.renamed name newName], false) ∧
    newName ∈ dirNames (dirRename name newName d) ∧
    name ∉ dirNames (dirRename name newName d) ∧
    (dirNames (dirRename name newName d)).countP
        (fun f => f == name || f == newName) = 1 ∧
    (parse_issue_filename newName).map Prod.fst = some resp.rnumber := by
  have hparseNew : parse_issue_filename newName = some (resp.rnumber, safeTitle resp.rtitle) := by
    rw [hnew]
    exact parse_get_issue_filename _ _ (le_of_lt hn)
  have hp5 : (parse_issue_filename newName).map Prod.fst = some resp.rnumber := by
    rw [hparseNew]
    rfl
  have hne : name ≠ newName := by
    intro he
    rw [he, hp5] at hpend
    have : resp.rnumber = 0 := by simpa using hpend
    omega
  have hfindSome : (d.find? (fun p => p.1 == name)).isSome = true := by
    rw [List.find?_isSome]
    obtain ⟨p, hp, hfst⟩ := List.mem_map.mp hmem
    exact ⟨p, hp, beq_iff_eq.mpr hfst⟩
  obtain ⟨q, hq⟩ := Option.isSome_iff_exists.mp hfindSome
  have hren : dirRename name newName d
      = (d.filter (fun p => !(p.1 == name) && !(p.1 == newName))) ++ [(newName, q.2)] := by
    unfold dirRename
    rw [hq]
  have hnames : dirNames (dirRename name newName d)
      = dirNames (d.filter (fun p => !(p.1 == name) && !(p.1 == newName))) ++ [newName] := by
    rw [hren]
    unfold dirNames
    rw [List.map_append]
    rfl
  have hbool : (resp.status == 200 || resp.status == 201) = true := by
    rcases hok with h | h <;> simp [h]
  have hloop : pushLoop g [⟨0, title, name, content⟩] d tr
      = (dirRename name newName d,
         tr ++ [Event.mutate true 0, Event.renamed name newName], false) := by
    simp only [pushLoop]
    rw [show (decide ((0 : Int) ≤ 0)) = true from rfl]
    rw [hresp, if_pos hbool, if_pos (le_refl (0 : Int)), ← hnew]
    simp [pushLoop, List.append_assoc]
  refine ⟨hloop, by simp [hnames], ?_, ?_, hp5⟩
  · rw [hnames]
    intro hmem2
    rcases List.mem_append.mp hmem2 with hl | hr
    · obtain ⟨p, hpf, hpeq⟩ := List.mem_map.mp hl
      obtain ⟨_, hpred⟩ := List.mem_filter.mp hpf
      rw [hpeq] at hpred
      simp at hpred
    · exact hne (by simpa using hr)
  · rw [hnames, List.countP_append]
    have h0 : (dirNames (d.filter (fun p => !(p.1 == name) && !(p.1 == newName)))).countP
        (fun f => f == name || f == newName) = 0 := by
      rw [List.countP_eq_zero]
      intro f hf
      obtain ⟨p, hpf, hpeq⟩ := List.mem_map.mp hf
      obtain ⟨_, hpred⟩ := List.mem_filter.mp hpf
      rw [hpeq] at hpred
      simp only [Bool.and_eq_true, Bool.not_eq_true', beq_eq_false_iff_ne] at hpred
      simp [hpred.1, hpred.2]
    rw [h0]
    simp

/-- C5 witness: the pending record 0.bug_a.md pushed against a gateway
assigning identity 42 and title Bug A is promoted by rename: the locator
42.bug_a.md is present, 0.bug_a.md is absent, exactly one of the two
locators of the record remains, and the new locator parses to identity 42. -/
theorem c5_promotion_witness :
    pushLoop (fun _ _ _ _ => (⟨201, 42, "Bug A"⟩ : Resp))
        [⟨0, "bug_a", "0.bug_a.md", "# Bug A\n\nbody"⟩]
        [("0.bug_a.md", "# Bug A\n\nbody")] []
      = (dirRename "0.bug_a.md" "42.bug_a.md" [("0.bug_a.md", "# Bug A\n\nbody")],
         [Event.mutate true 0, Event.renamed "0.bug_a.md" "42.bug_a.md"], false) ∧
    "42.bug_a.md" ∈ dirNames
        (dirRename "0.bug_a.md" "42.bug_a.md" [("0.bug_a.md", "# Bug A\n\nbody")]) ∧
    "0.bug_a.md" ∉ dirNames
        (dirRename "0.bug_a.md" "42.bug_a.md" [("0.bug_a.md", "# Bug A\n\nbody")]) ∧
    (dirNames (dirRename "0.bug_a.md" "42.bug_a.md"
        [("0.bug_a.md", "# Bug A\n\nbody")])).countP
        (fun f => f == "0.bug_a.md" || f == "42.bug_a.md") = 1 ∧
    (parse_issue_filename "42.bug_a.md").map Prod.fst = some 42 :=
  c5_promotion [("0.bug_a.md", "# Bug A\n\nbody")] "0.bug_a.md" "# Bug A\n\nbody"
    "bug_a" (fun _ _ _ _ => (⟨201, 42, "Bug A"⟩ : Resp)) [] ⟨201, 42, "Bug A"⟩
    "42.bug_a.md" rfl (by decide) (by decide) (by decide) (Or.inr rfl) (by decide)

/-! ## Claim C9: Local Store uniqueness invariant -/

/-- C9 counterexample: the store holds the single record 5.old_bug.md for
identity 5 (the invariant holds), and the remote issue 5 now has the title
New Bug.  save_issue_locally writes 5.new_bug.md but leaves the stale
5.old_bug.md in place: afterwards two files hold the positive identity 5,
violating the at-most-one-file-per-identity invariant that the claim asserts
is maintained by pull. -/
theorem c9_counterexample :
    uniquePosIds [("5.old_bug.md", "x")] ∧
    dirNames (save_issue_locally ⟨5, "New Bug", "b", "open", "2020", [], none, none⟩
        [("5.old_bug.md", "x")])
      = ["5.old_bug.md", "5.new_bug.md"] ∧
    ¬ uniquePosIds (save_issue_locally ⟨5, "New Bug", "b", "open", "2020", [], none, none⟩
        [("5.old_bug.md", "x")]) := by
  refine ⟨by decide, by decide, by decide⟩

/-- C9 amended: save_issue_locally preserves the uniqueness invariant only
when the locator it writes already exists in the store, or when no stored
file carries the identity the new locator parses to.  When a remote title
changed, the freshly-slugged locator is new while the stale locator still
carries the same identity, so the hypothesis fails and pull can leave two
files with one identity (see the counterexample). -/
theorem c9_amended (d : Dir) (i : RemoteIssue)
    (hu : uniquePosIds d)
    (hfresh : get_issue_filename i.number i.title ∈ dirNames d ∨
      (∀ m, parsePosId (get_issue_filename i.number i.title) = some m →
        ∀ f ∈ dirNames d, parsePosId f ≠ some m)) :
    uniquePosIds (save_issue_locally i d) := by
  unfold save_issue_locally dirWrite
  by_cases hin : (d.any (fun p => p.1 == get_issue_filename i.number i.title)) = true
  · rw [if_pos hin]
    have hnames : (d.map (fun p =>
        if p.1 == get_issue_filename i.number i.title
        then (get_issue_filename i.number i.title, renderIssue i) else p)).map Prod.fst
        = d.map Prod.fst := by
      rw [List.map_map]
      apply List.map_congr_left
      intro p _
      by_cases hp : (p.1 == get_issue_filename i.number i.title) = true
      · simp only [Function.comp_apply, hp, if_true]
        exact (beq_iff_eq.mp hp).symm
      · simp only [Function.comp_apply, hp, if_false]
        rfl
    unfold uniquePosIds
    rw [hnames]
    exact hu
  · rw [if_neg hin]
    have hnotmem : get_issue_filename i.number i.title ∉ dirNames d := by
      intro hm
      apply hin
      rw [List.any_eq_true]
      obtain ⟨p, hp, hfst⟩ := List.mem_map.mp hm
      exact ⟨p, hp, beq_iff_eq.mpr hfst⟩
    rcases hfresh with hfresh | hfresh
    · exact absurd hfresh hnotmem
    · unfold uniquePosIds
      rw [List.map_append, List.filterMap_append]
      cases hploc : parsePosId (get_issue_filename i.number i.title) with
      | none =>
        simp only [List.map_cons, List.map_nil, List.filterMap_cons, hploc,
          List.filterMap_nil, List.append_nil]
        exact hu
      | some m =>
        simp only [List.map_cons, List.map_nil, List.filterMap_cons, hploc,
          List.filterMap_nil]
        rw [List.nodup_append]
        refine ⟨hu, List.nodup_singleton m, ?_⟩
        intro x hx hx2
        have hxm : x = m := by simpa using hx2
        obtain ⟨f, hf, hfp⟩ := List.mem_filterMap.mp hx
        exact hfresh m hploc f hf (hxm ▸ hfp)

/-- C9 amended, witness: saving remote issue 5 with the unchanged title bug
over a store already holding 5.bug.md keeps the uniqueness invariant. -/
theorem c9_amended_witness :
    uniquePosIds (save_issue_locally ⟨5, "bug", "b", "open", "2020", [], none, none⟩
        [("5.bug.md", "x")]) :=
  c9_amended [("5.bug.md", "x")] ⟨5, "bug", "b", "open", "2020", [], none, none⟩
    (by decide) (Or.inl (by decide))

end Haku
